import Mathlib

/-!
Shallow embedding of the Simon Says firmware game engine
(`src/game/simon_game.cpp`, multiplayer variant, together with
`src/game/difficulty_modes.h` and the preset constants from `config.h`).

Modelling conventions:
* C++ `uint8_t`/`uint16_t`/`uint32_t` counters and times are modelled as `Nat`.
  All theorems about elapsed time assume a monotone clock
  (`lastInputTime ≤ now`), matching the firmware's use of `millis()`.
* The fixed C arrays `sequence[MAX_SEQUENCE_LENGTH]`, `players[4]` and
  `highScores[NUM_DIFFICULTIES]` are modelled as total functions from `Nat`;
  the engine only ever reads them below the corresponding length bound.
* `random(0, NUM_COLORS)` is modelled by passing the freshly drawn color as an
  explicit argument (`newColor`) to the operations that call it.
* Hardware and collaborator calls (LEDs, audio, `delay`, WebSocket broadcasts,
  `recordGameSession`, `saveHighScores`) do not mutate any engine state field
  and are therefore omitted; `loadHighScores` results parameterize the initial
  state, and the storage player-name lookup in `startMultiplayerGame` is
  modelled by the `names` argument.
-/

namespace Simon

/-- Color enumeration from `gpio_config.h` (RED=0, GREEN=1, BLUE=2, YELLOW=3,
NONE=255 the "no color" sentinel). -/
inductive Color where
  | RED
  | GREEN
  | BLUE
  | YELLOW
  | NONE
deriving DecidableEq, Repr

/-- Game states from `simon_game.h`. -/
inductive GameState where
  | IDLE
  | SHOWING_SEQUENCE
  | WAITING_INPUT
  | INPUT_CORRECT
  | INPUT_WRONG
  | GAME_OVER
  | HIGH_SCORE
deriving DecidableEq, Repr

/-- Game modes from `simon_game.h`. -/
inductive GameMode where
  | SINGLE_PLAYER
  | PASS_AND_PLAY
deriving DecidableEq, Repr

/-- `#define MAX_SEQUENCE_LENGTH 31` from `config.h`. -/
def MAX_SEQUENCE_LENGTH : Nat := 31

/-- `NUM_DIFFICULTIES = 4` from the `DifficultyLevel` enumeration. -/
def NUM_DIFFICULTIES : Nat := 4

/-- `#define DEFAULT_DIFFICULTY 1` from `config.h`. -/
def DEFAULT_DIFFICULTY : Nat := 1

/-- `DifficultySettings` structure from `difficulty_modes.h`. -/
structure DifficultySettings where
  name : String
  sequenceSpeed : Nat
  toneDuration : Nat
  maxLength : Nat
  timingWindow : Nat
deriving DecidableEq, Repr

/-- The static `difficulties[NUM_DIFFICULTIES]` table in
`getDifficultySettings`, built from the `DIFF_*` preset constants of
`config.h` (Easy 800/600/8/3000, Medium 600/400/14/2000, Hard 400/250/20/1500,
Expert 250/150/31/1000). Indices beyond 3 are never read by the source
(`level < NUM_DIFFICULTIES` is checked first); the catch-all arm is the
Expert row, matching array index 3. -/
def difficulties (i : Nat) : DifficultySettings :=
  match i with
  | 0 => ⟨"Easy", 800, 600, 8, 3000⟩
  | 1 => ⟨"Medium", 600, 400, 14, 2000⟩
  | 2 => ⟨"Hard", 400, 250, 20, 1500⟩
  | _ => ⟨"Expert", 250, 150, 31, 1000⟩

/-- `getDifficultySettings` from `difficulty_modes.h`: in-range index returns
that row, out-of-range falls back to `difficulties[DEFAULT_DIFFICULTY]`. -/
def getDifficultySettings (level : Nat) : DifficultySettings :=
  if level < NUM_DIFFICULTIES then difficulties level
  else difficulties DEFAULT_DIFFICULTY

/-- `PlayerScore` record from `simon_game.h`. -/
structure PlayerScore where
  playerId : String
  playerName : String
  score : Nat
  hasPlayed : Bool
deriving DecidableEq, Repr

/-- The mutable state of `SimonGame` (fields of the class that the game logic
reads or writes). -/
structure SimonGame where
  state : GameState
  currentDifficulty : Nat
  settings : DifficultySettings
  currentPlayerId : String
  gameStartTime : Nat
  gameMode : GameMode
  players : Nat → PlayerScore
  numPlayers : Nat
  currentPlayerIndex : Nat
  masterSequenceLength : Nat
  sequence : Nat → Color
  sequenceLength : Nat
  currentStep : Nat
  currentScore : Nat
  highScores : Nat → Nat
  stateStartTime : Nat
  lastInputTime : Nat

namespace SimonGame

/-- `SimonGame::setState`: records the new state and the entry time. -/
def setState (g : SimonGame) (newState : GameState) (now : Nat) : SimonGame :=
  { g with state := newState, stateStartTime := now }

/-- `SimonGame::setDifficulty`: an index below `NUM_DIFFICULTIES` installs that
tier and its settings; any other index leaves the game unchanged. -/
def setDifficulty (g : SimonGame) (difficulty : Nat) : SimonGame :=
  if difficulty < NUM_DIFFICULTIES then
    { g with currentDifficulty := difficulty,
             settings := getDifficultySettings difficulty }
  else g

/-- `SimonGame::extendSequence` with `newColor` standing for the
`generateRandomColor()` draw. In PASS_AND_PLAY below the master length the
stored color is reused (only the length moves); otherwise a fresh color is
written at index `sequenceLength` and, in PASS_AND_PLAY, the master length is
raised when overtaken. -/
def extendSequence (g : SimonGame) (newColor : Color) : SimonGame :=
  if g.sequenceLength < MAX_SEQUENCE_LENGTH then
    if g.gameMode = GameMode.PASS_AND_PLAY ∧
        g.sequenceLength < g.masterSequenceLength then
      { g with sequenceLength := g.sequenceLength + 1 }
    else
      let g1 : SimonGame :=
        { g with
          sequence := fun i => if i = g.sequenceLength then newColor
                               else g.sequence i,
          sequenceLength := g.sequenceLength + 1 }
      if g1.gameMode = GameMode.PASS_AND_PLAY ∧
          g1.masterSequenceLength < g1.sequenceLength then
        { g1 with masterSequenceLength := g1.sequenceLength }
      else g1
  else g

/-- `SimonGame::playSequence`: after the blocking playback burst it resets the
round cursor and stamps the input deadline base time. Playback itself only
drives LEDs/audio. -/
def playSequence (g : SimonGame) (now : Nat) : SimonGame :=
  { g with currentStep := 0, lastInputTime := now }

/-- `SimonGame::validateInput`. -/
def validateInput (g : SimonGame) (input : Color) : Bool :=
  if g.sequenceLength ≤ g.currentStep then false
  else input = g.sequence g.currentStep

/-- `SimonGame::updateHighScore`: strict improvement updates the in-memory
table (and persists via `saveHighScores`, a no-op on engine state) and moves
to the `HIGH_SCORE` state when not already there. -/
def updateHighScore (g : SimonGame) (now : Nat) : SimonGame :=
  if g.highScores g.currentDifficulty < g.currentScore then
    let g1 : SimonGame :=
      { g with highScores := fun i => if i = g.currentDifficulty
                                      then g.currentScore
                                      else g.highScores i }
    if g1.state ≠ GameState.HIGH_SCORE then
      g1.setState GameState.HIGH_SCORE now
    else g1
  else g

/-- `SimonGame::startGame`: set difficulty, zero the round state, clear the
sequence buffer, extend once and start showing. -/
def startGame (g : SimonGame) (difficulty : Nat) (now : Nat)
    (newColor : Color) : SimonGame :=
  let g1 := g.setDifficulty difficulty
  let g2 : SimonGame :=
    { g1 with sequenceLength := 0, currentStep := 0, currentScore := 0,
              gameStartTime := now, sequence := fun _ => Color.NONE }
  let g3 := g2.extendSequence newColor
  g3.setState GameState.SHOWING_SEQUENCE now

/-- `SimonGame::startMultiplayerGame`: a participant count outside 2..4 is
rejected up front (debug-logged) before any field is touched; otherwise the
multiplayer records are initialized (the `names` argument models the
storage display-name lookup with its "Player N" fallback) and the game starts
like `startGame`. -/
def startMultiplayerGame (g : SimonGame) (mode : GameMode)
    (playerIds : Nat → String) (names : Nat → String)
    (numPlayers_ : Nat) (difficulty : Nat) (now : Nat)
    (newColor : Color) : SimonGame :=
  if numPlayers_ < 2 ∨ 4 < numPlayers_ then g
  else
    let g1 : SimonGame :=
      { g with gameMode := mode, numPlayers := numPlayers_,
               currentPlayerIndex := 0, masterSequenceLength := 0,
               players := fun i =>
                 if i < numPlayers_ then ⟨playerIds i, names i, 0, false⟩
                 else g.players i }
    let g2 : SimonGame := { g1 with currentPlayerId := (g1.players 0).playerId }
    let g3 := g2.setDifficulty difficulty
    let g4 : SimonGame :=
      { g3 with sequenceLength := 0, currentStep := 0, currentScore := 0,
                gameStartTime := now, sequence := fun _ => Color.NONE }
    let g5 := g4.extendSequence newColor
    g5.setState GameState.SHOWING_SEQUENCE now

/-- `SimonGame::allPlayersFinished`. -/
def allPlayersFinished (g : SimonGame) : Bool :=
  (List.range g.numPlayers).all fun i => (g.players i).hasPlayed

/-- The do-while search loop of `SimonGame::nextPlayer`. Each iteration steps
`idx` one position round-robin; it stops returning `(idx, false)` when it is
back at `start` with that player already played (the loop's break), or
`(idx, true)` on the first index whose `hasPlayed` is false. The loop body
runs at most `numPlayers` times before one of the two exits fires, so fuel
`numPlayers` is exact; the fuel-0 arm is unreachable for a positive player
count. -/
def nextPlayerLoop (players : Nat → PlayerScore) (n start idx fuel : Nat) :
    Nat × Bool :=
  match fuel with
  | 0 => (idx, false)
  | fuel' + 1 =>
    let idx1 := (idx + 1) % n
    if idx1 = start ∧ (players idx1).hasPlayed then (idx1, false)
    else if (players idx1).hasPlayed = false then (idx1, true)
    else nextPlayerLoop players n start idx1 fuel'

/-- `SimonGame::nextPlayer`: round-robin advance to the next participant with
`hasPlayed == false`; when found, that participant becomes current. On the
full-circle break the index has wrapped back to the start and only a warning
is logged. -/
def nextPlayer (g : SimonGame) : SimonGame :=
  let r := nextPlayerLoop g.players g.numPlayers g.currentPlayerIndex
             g.currentPlayerIndex g.numPlayers
  if r.2 then
    { g with currentPlayerIndex := r.1,
             currentPlayerId := (g.players r.1).playerId }
  else
    { g with currentPlayerIndex := r.1 }

/-- `SimonGame::handleIdle`: any color press starts a game at the current
difficulty. -/
def handleIdle (g : SimonGame) (now : Nat) (pressed : Option Color)
    (newColor : Color) : SimonGame :=
  match pressed with
  | some _ => g.startGame g.currentDifficulty now newColor
  | none => g

/-- `SimonGame::handleShowingSequence`: blocking playback, then wait for
input. -/
def handleShowingSequence (g : SimonGame) (now : Nat) : SimonGame :=
  (g.playSequence now).setState GameState.WAITING_INPUT now

/-- `SimonGame::handleWaitingInput`: timeout check against the last accepted
input first (strict `>` in the source), then press handling: a correct press
advances the cursor and either completes the round or restarts the input
deadline; a wrong press fails the round. -/
def handleWaitingInput (g : SimonGame) (now : Nat)
    (pressed : Option Color) : SimonGame :=
  if g.settings.timingWindow < now - g.lastInputTime then
    g.setState GameState.INPUT_WRONG now
  else
    match pressed with
    | none => g
    | some c =>
      if g.validateInput c then
        let g1 : SimonGame := { g with currentStep := g.currentStep + 1 }
        if g1.sequenceLength ≤ g1.currentStep then
          g1.setState GameState.INPUT_CORRECT now
        else
          { g1 with lastInputTime := now }
      else g.setState GameState.INPUT_WRONG now

/-- `SimonGame::handleInputCorrect`: bump the score (mirrored into the current
player's record in PASS_AND_PLAY); at the tier's maximum length the game ends
as a win (single-player also updates the high score), otherwise the sequence
grows and is shown again. -/
def handleInputCorrect (g : SimonGame) (now : Nat) (newColor : Color) :
    SimonGame :=
  let g1 : SimonGame := { g with currentScore := g.currentScore + 1 }
  let g2 : SimonGame :=
    if g1.gameMode = GameMode.PASS_AND_PLAY then
      { g1 with players := fun i =>
          if i = g1.currentPlayerIndex then
            { g1.players g1.currentPlayerIndex with score := g1.currentScore }
          else g1.players i }
    else g1
  if g2.settings.maxLength ≤ g2.sequenceLength then
    let g3 := if g2.gameMode = GameMode.SINGLE_PLAYER then
                g2.updateHighScore now
              else g2
    g3.setState GameState.GAME_OVER now
  else
    (g2.extendSequence newColor).setState GameState.SHOWING_SEQUENCE now

/-- `SimonGame::handleInputWrong`: single-player updates the high score,
records the session and moves to `GAME_OVER`; PASS_AND_PLAY finalizes the
current player's record and either ends the game (everyone played) or rotates
to the next player and replays the shared sequence from length 1. -/
def handleInputWrong (g : SimonGame) (now : Nat) : SimonGame :=
  if g.gameMode = GameMode.SINGLE_PLAYER then
    let g1 := g.updateHighScore now
    g1.setState GameState.GAME_OVER now
  else
    let g1 : SimonGame :=
      { g with players := fun i =>
          if i = g.currentPlayerIndex then
            { g.players g.currentPlayerIndex with
              score := g.currentScore, hasPlayed := true }
          else g.players i }
    let g2 : SimonGame :=
      { g1 with currentPlayerId := (g1.players g1.currentPlayerIndex).playerId }
    if g2.allPlayersFinished then g2.setState GameState.GAME_OVER now
    else
      let g3 := g2.nextPlayer
      let g4 : SimonGame :=
        { g3 with currentScore := 0, currentStep := 0, sequenceLength := 1 }
      g4.setState GameState.SHOWING_SEQUENCE now

/-- `SimonGame::handleGameOver`: after the 2-second hold, any press restarts
at the current difficulty. -/
def handleGameOver (g : SimonGame) (now : Nat) (pressed : Option Color)
    (newColor : Color) : SimonGame :=
  if 2000 < now - g.stateStartTime then
    match pressed with
    | some _ => g.startGame g.currentDifficulty now newColor
    | none => g
  else g

/-- `SimonGame::handleHighScore`: celebration hold, then `GAME_OVER`. -/
def handleHighScore (g : SimonGame) (now : Nat) : SimonGame :=
  if 2000 < now - g.stateStartTime then
    g.setState GameState.GAME_OVER now
  else g

/-- `SimonGame::update`: one tick of the state machine. `pressed` is the
debounced `getJustPressed()` edge event for this tick, `newColor` the random
draw consumed if the tick extends the sequence. -/
def update (g : SimonGame) (now : Nat) (pressed : Option Color)
    (newColor : Color) : SimonGame :=
  match g.state with
  | GameState.IDLE => g.handleIdle now pressed newColor
  | GameState.SHOWING_SEQUENCE => g.handleShowingSequence now
  | GameState.WAITING_INPUT => g.handleWaitingInput now pressed
  | GameState.INPUT_CORRECT => g.handleInputCorrect now newColor
  | GameState.INPUT_WRONG => g.handleInputWrong now
  | GameState.GAME_OVER => g.handleGameOver now pressed newColor
  | GameState.HIGH_SCORE => g.handleHighScore now

end SimonGame

/-- The engine state after the constructor and `begin()`: idle, Easy tier with
its settings installed, empty sequence, zero counters; `hs` is the high-score
table as loaded from storage (all zeros when storage is absent). -/
def initGame (hs : Nat → Nat) : SimonGame :=
  { state := GameState.IDLE
    currentDifficulty := 0
    settings := getDifficultySettings 0
    currentPlayerId := ""
    gameStartTime := 0
    gameMode := GameMode.SINGLE_PLAYER
    players := fun _ => ⟨"", "", 0, false⟩
    numPlayers := 0
    currentPlayerIndex := 0
    masterSequenceLength := 0
    sequence := fun _ => Color.NONE
    sequenceLength := 0
    currentStep := 0
    currentScore := 0
    highScores := hs
    stateStartTime := 0
    lastInputTime := 0 }

/-!
Concrete states used by counterexamples and witnesses.
-/

/-- A fresh engine with an all-zero high-score table. -/
def zeroGame : SimonGame := initGame fun _ => 0

/-- Single-player round failure with score 1 against a stored best of 0:
the tick that processes `INPUT_WRONG`. -/
def c1Game : SimonGame :=
  { zeroGame with state := GameState.INPUT_WRONG, currentScore := 1 }

/-- Single-player Easy-tier win: `INPUT_CORRECT` with the sequence already at
the maximum length 8 and seven prior completed rounds (stored best 0). -/
def c1WinGame : SimonGame :=
  { zeroGame with state := GameState.INPUT_CORRECT, sequenceLength := 8,
                  currentStep := 8, currentScore := 7 }

/-- Easy-tier single-player engine waiting for the first input of a length-1
round, deadline base at time 0 (input window 3000 ms). -/
def c2Game : SimonGame :=
  { zeroGame with state := GameState.WAITING_INPUT, sequenceLength := 1,
                  sequence := fun _ => Color.RED, lastInputTime := 0 }

/-- Finished pass-and-play turn: player 0 of two ends a turn with score 5
against a stored best of 0 (turn ends, record finalized, next player
rotated in). -/
def c4Game : SimonGame :=
  { zeroGame with state := GameState.INPUT_WRONG,
                  gameMode := GameMode.PASS_AND_PLAY,
                  numPlayers := 2, currentPlayerIndex := 0,
                  currentScore := 5, masterSequenceLength := 5,
                  sequenceLength := 5 }

/-- Pass-and-play game of two players: player 0 is completing the round that
brought the Easy-tier sequence to its maximum length 8, with seven previously
completed rounds and a stored best of 0. -/
def c5Game : SimonGame :=
  { zeroGame with state := GameState.INPUT_CORRECT,
                  gameMode := GameMode.PASS_AND_PLAY,
                  numPlayers := 2, currentPlayerIndex := 0,
                  sequenceLength := 8, masterSequenceLength := 8,
                  currentStep := 8, currentScore := 7 }

/-- The same situation in a single-player game. -/
def c5SoloGame : SimonGame :=
  { c5Game with gameMode := GameMode.SINGLE_PLAYER }

/-- An active (mid-game) pass-and-play state whose master sequence has two
fixed colors. -/
def c3Game : SimonGame :=
  { zeroGame with gameMode := GameMode.PASS_AND_PLAY,
                  state := GameState.WAITING_INPUT,
                  numPlayers := 2, masterSequenceLength := 2,
                  sequenceLength := 2,
                  sequence := fun i => if i = 0 then Color.RED
                                       else if i = 1 then Color.GREEN
                                       else Color.NONE,
                  lastInputTime := 0 }

/-- Three-participant pass-and-play state pointing at player 1; players 1 and
2 have finished their turns, player 0 has not. -/
def c10Game : SimonGame :=
  { zeroGame with gameMode := GameMode.PASS_AND_PLAY,
                  numPlayers := 3, currentPlayerIndex := 1,
                  players := fun i =>
                    if i = 0 then ⟨"A", "Alice", 0, false⟩
                    else if i = 1 then ⟨"B", "Bob", 3, true⟩
                    else if i = 2 then ⟨"C", "Carol", 2, true⟩
                    else ⟨"", "", 0, false⟩ }

/-- The structural invariant of claim C8: the round cursor never runs past the
sequence, and the sequence never exceeds the active tier's maximum length
(which is positive for every tier). -/
def Inv (g : SimonGame) : Prop :=
  g.currentStep ≤ g.sequenceLength ∧
  g.sequenceLength ≤ g.settings.maxLength ∧
  1 ≤ g.settings.maxLength

/-- Engine states reachable through the public operations of the claims:
the initialized engine, `startGame`, `startMultiplayerGame`, and ticks of
`update` in any state (which internally cover the multiplayer turn
rotation). -/
inductive Reachable : SimonGame → Prop where
  | init (hs : Nat → Nat) : Reachable (initGame hs)
  | start (g : SimonGame) (d now : Nat) (c : Color) :
      Reachable g → Reachable (g.startGame d now c)
  | startMulti (g : SimonGame) (mode : GameMode) (ids names : Nat → String)
      (n d now : Nat) (c : Color) :
      Reachable g → Reachable (g.startMultiplayerGame mode ids names n d now c)
  | tick (g : SimonGame) (now : Nat) (p : Option Color) (c : Color) :
      Reachable g → Reachable (g.update now p c)

/-- Tick traces that stay inside one running game: `MultiTrace g g2` means
`g2` is obtained from `g` by ticking `update` any number of times, never
ticking from `IDLE` or `GAME_OVER` (which would start a fresh game). -/
inductive MultiTrace : SimonGame → SimonGame → Prop where
  | refl (g : SimonGame) : MultiTrace g g
  | tick (g g2 : SimonGame) (now : Nat) (p : Option Color) (c : Color) :
      MultiTrace g g2 → g2.state ≠ GameState.IDLE →
      g2.state ≠ GameState.GAME_OVER →
      MultiTrace g (g2.update now p c)

/-- C9. Across the four difficulty tiers in increasing index order, the lookup
returns non-increasing `sequenceSpeed` (stepIntervalMs), `toneDuration` and
`timingWindow` (inputWindowMs), and non-decreasing `maxLength` — the table is
monotonically ordered from easiest to hardest. -/
theorem C9_monotonic_difficulty_table :
    (List.range NUM_DIFFICULTIES).Pairwise fun i j =>
      (getDifficultySettings j).sequenceSpeed ≤
        (getDifficultySettings i).sequenceSpeed ∧
      (getDifficultySettings j).toneDuration ≤
        (getDifficultySettings i).toneDuration ∧
      (getDifficultySettings j).timingWindow ≤
        (getDifficultySettings i).timingWindow ∧
      (getDifficultySettings i).maxLength ≤
        (getDifficultySettings j).maxLength := by
  decide

/-- C6. `startMultiplayerGame` with a participant count below 2 or above 4 is
rejected before any field is assigned: the resulting engine state is exactly
the prior state. -/
theorem C6_invalid_count_untouched (g : SimonGame) (mode : GameMode)
    (playerIds names : Nat → String) (n d now : Nat) (c : Color)
    (h : n < 2 ∨ 4 < n) :
    g.startMultiplayerGame mode playerIds names n d now c = g := by
  simp [SimonGame.startMultiplayerGame, h]

/-- Witness for C6: starting with 5 participants (and the validation fact
5 ∉ [2,4]) leaves a concrete engine state unchanged. -/
theorem C6_invalid_count_untouched_witness :
    (5 < 2 ∨ 4 < 5) ∧
    zeroGame.startMultiplayerGame GameMode.PASS_AND_PLAY (fun _ => "p")
      (fun _ => "n") 5 0 17 Color.RED = zeroGame :=
  ⟨Or.inr (by decide),
   C6_invalid_count_untouched zeroGame GameMode.PASS_AND_PLAY (fun _ => "p")
     (fun _ => "n") 5 0 17 Color.RED (Or.inr (by decide))⟩

/-- Counterexample for C7: the claim says an invalid index given to
`setDifficulty` is "clamped to a safe default"; in the code it is ignored.
Starting from the Easy tier (index 0), `setDifficulty 7` leaves the tier at 0
— it is not moved to `DEFAULT_DIFFICULTY` (= 1, the documented default used
by the lookup fallback). -/
theorem C7_invalid_not_clamped :
    (zeroGame.setDifficulty 7).currentDifficulty = 0 ∧
    (zeroGame.setDifficulty 7).currentDifficulty ≠ DEFAULT_DIFFICULTY := by
  constructor
  · rfl
  · decide

/-- C7 (amended). The difficulty lookup is a pure total function: an in-range
index returns that tier's row and any out-of-range index falls back to the
row of `DEFAULT_DIFFICULTY`; `setDifficulty` installs a valid index together
with its settings and ignores an invalid index entirely (no state change,
rather than clamping to the default), so after any `setDifficulty` call the
active difficulty is still a valid tier with that tier's settings. -/
theorem C7_lookup_total_invalid_ignored :
    (∀ level, level < NUM_DIFFICULTIES →
      getDifficultySettings level = difficulties level) ∧
    (∀ level, NUM_DIFFICULTIES ≤ level →
      getDifficultySettings level = difficulties DEFAULT_DIFFICULTY) ∧
    (∀ (g : SimonGame) (d : Nat), NUM_DIFFICULTIES ≤ d →
      g.setDifficulty d = g) ∧
    (∀ (g : SimonGame) (d : Nat),
      g.currentDifficulty < NUM_DIFFICULTIES →
      g.settings = getDifficultySettings g.currentDifficulty →
      (g.setDifficulty d).currentDifficulty < NUM_DIFFICULTIES ∧
      (g.setDifficulty d).settings =
        getDifficultySettings (g.setDifficulty d).currentDifficulty) := by
  refine ⟨fun level h => ?_, fun level h => ?_, fun g d h => ?_,
          fun g d hlt hset => ?_⟩
  · simp [getDifficultySettings, h]
  · simp [getDifficultySettings, Nat.not_lt.mpr h]
  · simp [SimonGame.setDifficulty, Nat.not_lt.mpr h]
  · unfold SimonGame.setDifficulty
    split
    · exact ⟨by assumption, rfl⟩
    · exact ⟨hlt, hset⟩

/-- Witness for C7: concrete uses of each conjunct — index 9 falls back to the
default row, and `setDifficulty 9` on a concrete engine is the identity. -/
theorem C7_lookup_total_invalid_ignored_witness :
    getDifficultySettings 9 = difficulties DEFAULT_DIFFICULTY ∧
    zeroGame.setDifficulty 9 = zeroGame :=
  ⟨C7_lookup_total_invalid_ignored.2.1 9 (by decide),
   C7_lookup_total_invalid_ignored.2.2.1 zeroGame 9 (by decide)⟩

/-- C1 (code evaluated at the failing inputs). On both turn-ending paths with
the current score strictly above the stored best, the state observable after
the tick is `GAME_OVER`, not `HIGH_SCORE`: `updateHighScore` does switch to
`HIGH_SCORE`, but `handleInputWrong` and `handleInputCorrect` immediately
overwrite it with `setState(GAME_OVER)` in the same tick, so the celebration
state (and its fixed hold in `handleHighScore`) is never observable. -/
theorem C1_highscore_state_overwritten :
    (c1Game.currentScore > c1Game.highScores c1Game.currentDifficulty ∧
     (c1Game.update 5000 none Color.RED).state = GameState.GAME_OVER ∧
     (c1Game.update 5000 none Color.RED).highScores
       c1Game.currentDifficulty = 1) ∧
    (c1WinGame.currentScore + 1 >
       c1WinGame.highScores c1WinGame.currentDifficulty ∧
     (c1WinGame.update 5000 none Color.RED).state = GameState.GAME_OVER ∧
     (c1WinGame.update 5000 none Color.RED).highScores
       c1WinGame.currentDifficulty = 8) := by
  refine ⟨⟨by decide, ?_, ?_⟩, ⟨by decide, ?_, ?_⟩⟩ <;> rfl

/-- Counterexample for C2: with the Easy input window W = 3000 ms, an idle
gap of exactly W milliseconds does not fail the round — the tick at
`now - lastInputTime = W` with no press leaves the engine in `WAITING_INPUT`
unchanged (the source only times out on a strictly larger gap). -/
theorem C2_gap_equal_window_no_fail :
    c2Game.settings.timingWindow = 3000 ∧
    c2Game.update 3000 none Color.RED = c2Game ∧
    c2Game.state = GameState.WAITING_INPUT := by
  refine ⟨rfl, rfl, rfl⟩

/-- C2 (amended). In `WAITING_INPUT` with input window W, under a monotone
clock: a correct press delivered at any time strictly below W after the
deadline base (the previous accepted press, or end of playback) never fails
the round — for any sequence length and cursor position — and when the round
is not yet complete the deadline restarts at the press time; a press-free
tick fails the round exactly when the gap strictly exceeds W (a gap of
exactly W does not yet fail — this is where the original "at least W" claim
is off by one). -/
theorem C2_per_keystroke_window (g : SimonGame) (now : Nat) (c nc : Color)
    (hstate : g.state = GameState.WAITING_INPUT)
    (_hclock : g.lastInputTime ≤ now) :
    (now - g.lastInputTime < g.settings.timingWindow →
      g.validateInput c = true →
      (g.update now (some c) nc).state ≠ GameState.INPUT_WRONG ∧
      (g.currentStep + 1 < g.sequenceLength →
        (g.update now (some c) nc).lastInputTime = now ∧
        (g.update now (some c) nc).state = GameState.WAITING_INPUT)) ∧
    (g.settings.timingWindow < now - g.lastInputTime →
      (g.update now none nc).state = GameState.INPUT_WRONG) ∧
    (now - g.lastInputTime ≤ g.settings.timingWindow →
      g.update now none nc = g) := by
  refine ⟨fun hlt hok => ?_, fun hgt => ?_, fun hle => ?_⟩
  · have hnot : ¬ g.settings.timingWindow < now - g.lastInputTime := by omega
    constructor
    · simp only [SimonGame.update, hstate, SimonGame.handleWaitingInput,
        if_neg hnot, hok, if_pos]
      split
      · simp [SimonGame.setState]
      · simp
    · intro hmid
      have hnotdone : ¬ g.sequenceLength ≤ g.currentStep + 1 := by omega
      simp only [SimonGame.update, hstate, SimonGame.handleWaitingInput,
        if_neg hnot, hok, if_pos]
      rw [if_neg hnotdone]
      exact ⟨rfl, rfl⟩
  · simp [SimonGame.update, hstate, SimonGame.handleWaitingInput, hgt,
      SimonGame.setState]
  · have hnot : ¬ g.settings.timingWindow < now - g.lastInputTime := by omega
    simp [SimonGame.update, hstate, SimonGame.handleWaitingInput, hnot]

/-- Witness for C2: on a concrete Easy-tier state, a correct press at
t = 10 < 3000 does not fail the round, and a press-free tick at gap
3001 > 3000 does. -/
theorem C2_per_keystroke_window_witness :
    (c2Game.update 10 (some Color.RED) Color.RED).state ≠
      GameState.INPUT_WRONG ∧
    (c2Game.update 3001 none Color.RED).state = GameState.INPUT_WRONG :=
  ⟨((C2_per_keystroke_window c2Game 10 Color.RED Color.RED rfl
      (by decide)).1 (by decide) (by decide)).1,
   (C2_per_keystroke_window c2Game 3001 Color.RED Color.RED rfl
      (by decide)).2.1 (by decide)⟩

/-!
Field-preservation lemmas used across several claims.
-/

theorem startGame_highScores (g : SimonGame) (d now : Nat) (c : Color) :
    (g.startGame d now c).highScores = g.highScores := by
  simp only [SimonGame.startGame, SimonGame.setDifficulty,
    SimonGame.extendSequence, SimonGame.setState]
  repeat' split
  all_goals rfl

theorem startGame_gameMode (g : SimonGame) (d now : Nat) (c : Color) :
    (g.startGame d now c).gameMode = g.gameMode := by
  simp only [SimonGame.startGame, SimonGame.setDifficulty,
    SimonGame.extendSequence, SimonGame.setState]
  repeat' split
  all_goals rfl

theorem nextPlayer_only_rotates (g : SimonGame) :
    (g.nextPlayer).highScores = g.highScores ∧
    (g.nextPlayer).gameMode = g.gameMode ∧
    (g.nextPlayer).sequence = g.sequence ∧
    (g.nextPlayer).masterSequenceLength = g.masterSequenceLength ∧
    (g.nextPlayer).sequenceLength = g.sequenceLength ∧
    (g.nextPlayer).currentStep = g.currentStep ∧
    (g.nextPlayer).settings = g.settings ∧
    (g.nextPlayer).currentScore = g.currentScore ∧
    (g.nextPlayer).players = g.players := by
  simp only [SimonGame.nextPlayer]
  split
  all_goals exact ⟨rfl, rfl, rfl, rfl, rfl, rfl, rfl, rfl, rfl⟩

/-- In PASS_AND_PLAY mode no tick of the state machine ever writes the
in-memory high-score table. -/
theorem update_highScores_pass (g : SimonGame)
    (h : g.gameMode = GameMode.PASS_AND_PLAY) (now : Nat)
    (p : Option Color) (c : Color) :
    (g.update now p c).highScores = g.highScores := by
  cases hst : g.state
  case IDLE =>
    cases p <;>
      simp [SimonGame.update, hst, SimonGame.handleIdle, startGame_highScores]
  case SHOWING_SEQUENCE =>
    simp [SimonGame.update, hst, SimonGame.handleShowingSequence,
      SimonGame.playSequence, SimonGame.setState]
  case WAITING_INPUT =>
    simp only [SimonGame.update, hst, SimonGame.handleWaitingInput,
      SimonGame.setState]
    repeat' split
    all_goals rfl
  case INPUT_CORRECT =>
    simp only [SimonGame.update, hst, SimonGame.handleInputCorrect,
      SimonGame.updateHighScore, SimonGame.extendSequence,
      SimonGame.setState, h]
    repeat' split
    all_goals simp_all
  case INPUT_WRONG =>
    simp only [SimonGame.update, hst, SimonGame.handleInputWrong,
      SimonGame.setState, h]
    repeat' split
    all_goals simp_all [(nextPlayer_only_rotates _).1]
  case GAME_OVER =>
    cases p <;>
      simp only [SimonGame.update, hst, SimonGame.handleGameOver] <;>
      split <;> simp [startGame_highScores]
  case HIGH_SCORE =>
    simp only [SimonGame.update, hst, SimonGame.handleHighScore,
      SimonGame.setState]
    split
    all_goals rfl

/-- Counterexample for C4: a multiplayer finished session whose score 5
strictly exceeds the stored best 0 updates nothing — after the turn-ending
tick the player's record is finalized (`hasPlayed = true`, score 5) yet the
stored best for the tier is still 0 and no `HIGH_SCORE` state is triggered,
contradicting "for every finished session, single-player or multiplayer". -/
theorem C4_multiplayer_session_no_update :
    c4Game.currentScore > c4Game.highScores c4Game.currentDifficulty ∧
    ((c4Game.update 100 none Color.RED).players 0).hasPlayed = true ∧
    ((c4Game.update 100 none Color.RED).players 0).score = 5 ∧
    (c4Game.update 100 none Color.RED).highScores
      c4Game.currentDifficulty = 0 ∧
    (c4Game.update 100 none Color.RED).state ≠ GameState.HIGH_SCORE := by
  refine ⟨by decide, rfl, rfl, rfl, by decide⟩

/-- C4 (amended). The in-memory stored best for a tier is governed by
`updateHighScore`: it is updated exactly on strict improvement (tie or worse
changes nothing at all) and only then moves toward the `HIGH_SCORE`
celebration, and it never touches other tiers. That path runs only for
single-player sessions: in pass-and-play mode no tick ever changes the
in-memory table (multiplayer scores only flow to the persistence sink via
the recorded session). -/
theorem C4_strict_improvement_only (g : SimonGame) (now : Nat) :
    (g.highScores g.currentDifficulty < g.currentScore →
      (g.updateHighScore now).highScores g.currentDifficulty =
        g.currentScore ∧
      (g.state ≠ GameState.HIGH_SCORE →
        (g.updateHighScore now).state = GameState.HIGH_SCORE)) ∧
    (g.currentScore ≤ g.highScores g.currentDifficulty →
      g.updateHighScore now = g) ∧
    (∀ d, d ≠ g.currentDifficulty →
      (g.updateHighScore now).highScores d = g.highScores d) ∧
    (g.gameMode = GameMode.PASS_AND_PLAY →
      ∀ (p : Option Color) (c : Color),
        (g.update now p c).highScores = g.highScores) := by
  refine ⟨fun himp => ⟨?_, fun hne => ?_⟩, fun htie => ?_, fun d hd => ?_,
          fun hmode p c => update_highScores_pass g hmode now p c⟩
  · simp only [SimonGame.updateHighScore, if_pos himp, SimonGame.setState]
    split
    all_goals simp
  · simp only [SimonGame.updateHighScore, if_pos himp, SimonGame.setState]
    rw [if_pos]
    exact hne
  · simp [SimonGame.updateHighScore, Nat.not_lt.mpr htie]
  · simp only [SimonGame.updateHighScore, SimonGame.setState]
    repeat' split
    all_goals simp_all

/-- Witness for C4: strict improvement (1 > 0) updates the Easy slot to 1,
a tie (0 ≤ 0) leaves a fresh engine unchanged, and a concrete multiplayer
tick preserves the whole table. -/
theorem C4_strict_improvement_only_witness :
    (({ zeroGame with
         currentScore := 1 } : SimonGame).updateHighScore 7).highScores
      ({ zeroGame with currentScore := 1 } : SimonGame).currentDifficulty
      = 1 ∧
    zeroGame.updateHighScore 7 = zeroGame ∧
    (c4Game.update 100 none Color.RED).highScores = c4Game.highScores :=
  ⟨((C4_strict_improvement_only { zeroGame with currentScore := 1 } 7).1
      (by decide)).1,
   (C4_strict_improvement_only zeroGame 7).2.1 (by decide),
   (C4_strict_improvement_only c4Game 100).2.2.2 rfl none Color.RED⟩

/-- Counterexample for C5: multiplayer max-length handling does not mirror the
single-player win per player. In the identical max-length situation the
single-player engine updates the stored best to 8, while the pass-and-play
engine ends the entire game with the stored best still 0, the finishing
player's `hasPlayed` still false, and the second participant never getting a
turn. -/
theorem C5_multiplayer_not_mirrored :
    (c5Game.update 100 none Color.RED).state = GameState.GAME_OVER ∧
    (c5Game.update 100 none Color.RED).highScores
      c5Game.currentDifficulty = 0 ∧
    ((c5Game.update 100 none Color.RED).players 0).hasPlayed = false ∧
    c5Game.currentScore + 1 > c5Game.highScores c5Game.currentDifficulty ∧
    (c5SoloGame.update 100 none Color.RED).highScores
      c5SoloGame.currentDifficulty = 8 := by
  refine ⟨rfl, rfl, rfl, by decide, rfl⟩

/-- C5 (amended). Completing a round with the sequence at the tier's maximum
length ends the game via the success path (straight to `GAME_OVER`, no error
handling): in single-player the score is bumped and the stored best updated
exactly on strict improvement; in pass-and-play the score is bumped and
mirrored into the finishing player's record, but the whole game ends
immediately with the in-memory high-score table untouched and every
`hasPlayed` flag unchanged — it does not replicate the single-player
high-score/turn treatment per player. -/
theorem C5_win_condition (g : SimonGame) (now : Nat) (p : Option Color)
    (c : Color) (hstate : g.state = GameState.INPUT_CORRECT)
    (hmax : g.settings.maxLength ≤ g.sequenceLength) :
    (g.gameMode = GameMode.SINGLE_PLAYER →
      (g.update now p c).state = GameState.GAME_OVER ∧
      (g.update now p c).currentScore = g.currentScore + 1 ∧
      (g.highScores g.currentDifficulty < g.currentScore + 1 →
        (g.update now p c).highScores g.currentDifficulty =
          g.currentScore + 1) ∧
      (g.currentScore + 1 ≤ g.highScores g.currentDifficulty →
        (g.update now p c).highScores g.currentDifficulty =
          g.highScores g.currentDifficulty)) ∧
    (g.gameMode = GameMode.PASS_AND_PLAY →
      (g.update now p c).state = GameState.GAME_OVER ∧
      (g.update now p c).currentScore = g.currentScore + 1 ∧
      ((g.update now p c).players g.currentPlayerIndex).score =
        g.currentScore + 1 ∧
      (g.update now p c).highScores = g.highScores ∧
      ∀ i, ((g.update now p c).players i).hasPlayed =
        (g.players i).hasPlayed) := by
  constructor
  · intro hmode
    simp only [SimonGame.update, hstate, SimonGame.handleInputCorrect,
      SimonGame.updateHighScore, SimonGame.setState, hmode, hmax]
    repeat' split
    all_goals simp_all
  · intro hmode
    simp only [SimonGame.update, hstate, SimonGame.handleInputCorrect,
      SimonGame.updateHighScore, SimonGame.setState, hmode, hmax]
    repeat' split
    all_goals simp_all
    all_goals (intro i; split <;> simp_all)

/-- Witness for C5: the concrete max-length situations above, through the
amended theorem — single-player reaches `GAME_OVER` with score 8, and the
pass-and-play engine reaches `GAME_OVER` with its high-score table intact. -/
theorem C5_win_condition_witness :
    ((c5SoloGame.update 100 none Color.RED).state = GameState.GAME_OVER ∧
     (c5SoloGame.update 100 none Color.RED).currentScore = 8) ∧
    ((c5Game.update 100 none Color.RED).state = GameState.GAME_OVER ∧
     (c5Game.update 100 none Color.RED).highScores = c5Game.highScores) := by
  have hsolo := (C5_win_condition c5SoloGame 100 none Color.RED rfl
    (by decide)).1 rfl
  have hpass := (C5_win_condition c5Game 100 none Color.RED rfl
    (by decide)).2 rfl
  exact ⟨⟨hsolo.1, hsolo.2.1⟩, ⟨hpass.1, hpass.2.2.2.1⟩⟩

/-!
Invariant preservation for claim C8.
-/

theorem maxLength_table (l : Nat) : 8 ≤ (difficulties l).maxLength := by
  rcases l with _ | _ | _ | n
  all_goals simp [difficulties]

theorem maxLength_lookup (l : Nat) : 8 ≤ (getDifficultySettings l).maxLength := by
  unfold getDifficultySettings
  split
  all_goals apply maxLength_table

theorem extendSequence_fields (g : SimonGame) (c : Color) :
    (g.extendSequence c).currentStep = g.currentStep ∧
    (g.extendSequence c).settings = g.settings ∧
    g.sequenceLength ≤ (g.extendSequence c).sequenceLength ∧
    (g.extendSequence c).sequenceLength ≤ g.sequenceLength + 1 := by
  simp only [SimonGame.extendSequence]
  repeat' split
  all_goals simp

theorem inv_startGame (g : SimonGame) (d now : Nat) (c : Color)
    (hml : 1 ≤ g.settings.maxLength) : Inv (g.startGame d now c) := by
  have h8 := maxLength_lookup d
  simp only [Inv, SimonGame.startGame, SimonGame.setDifficulty,
    SimonGame.extendSequence, SimonGame.setState, MAX_SEQUENCE_LENGTH]
  repeat' split
  all_goals simp_all
  all_goals omega

theorem inv_startMultiplayerGame (g : SimonGame) (mode : GameMode)
    (ids names : Nat → String) (n d now : Nat) (c : Color) (h : Inv g) :
    Inv (g.startMultiplayerGame mode ids names n d now c) := by
  have h8 := maxLength_lookup d
  obtain ⟨h1, h2, h3⟩ := h
  simp only [Inv, SimonGame.startMultiplayerGame, SimonGame.setDifficulty,
    SimonGame.extendSequence, SimonGame.setState, MAX_SEQUENCE_LENGTH]
  repeat' split
  all_goals simp_all
  all_goals omega

theorem inv_update (g : SimonGame) (now : Nat) (p : Option Color) (c : Color)
    (h : Inv g) : Inv (g.update now p c) := by
  cases hst : g.state
  case IDLE =>
    cases p with
    | none => simpa [SimonGame.update, hst, SimonGame.handleIdle] using h
    | some x =>
      simp only [SimonGame.update, hst, SimonGame.handleIdle]
      exact inv_startGame g g.currentDifficulty now c h.2.2
  case SHOWING_SEQUENCE =>
    obtain ⟨h1, h2, h3⟩ := h
    simp only [SimonGame.update, hst, SimonGame.handleShowingSequence,
      SimonGame.playSequence, SimonGame.setState, Inv]
    exact ⟨Nat.zero_le _, h2, h3⟩
  case WAITING_INPUT =>
    obtain ⟨h1, h2, h3⟩ := h
    simp only [SimonGame.update, hst, SimonGame.handleWaitingInput,
      SimonGame.validateInput, SimonGame.setState, Inv]
    repeat' split
    all_goals simp_all
    all_goals omega
  case INPUT_CORRECT =>
    obtain ⟨h1, h2, h3⟩ := h
    simp only [SimonGame.update, hst, SimonGame.handleInputCorrect,
      SimonGame.updateHighScore, SimonGame.extendSequence,
      SimonGame.setState, Inv, MAX_SEQUENCE_LENGTH]
    repeat' split
    all_goals simp_all
    all_goals omega
  case INPUT_WRONG =>
    obtain ⟨h1, h2, h3⟩ := h
    simp only [SimonGame.update, hst, SimonGame.handleInputWrong,
      SimonGame.updateHighScore, SimonGame.nextPlayer,
      SimonGame.setState, Inv]
    repeat' split
    all_goals simp_all
  case GAME_OVER =>
    cases p with
    | none =>
      simp only [SimonGame.update, hst, SimonGame.handleGameOver]
      split
      all_goals simpa using h
    | some x =>
      simp only [SimonGame.update, hst, SimonGame.handleGameOver]
      split
      · exact inv_startGame g g.currentDifficulty now c h.2.2
      · simpa using h
  case HIGH_SCORE =>
    simp only [SimonGame.update, hst, SimonGame.handleHighScore,
      SimonGame.setState]
    split
    · exact ⟨h.1, h.2.1, h.2.2⟩
    · exact h

/-!
Master-sequence stability for claim C3.
-/

theorem nextPlayer_gameMode (g : SimonGame) :
    (g.nextPlayer).gameMode = g.gameMode :=
  (nextPlayer_only_rotates g).2.1

theorem nextPlayer_sequence (g : SimonGame) :
    (g.nextPlayer).sequence = g.sequence :=
  (nextPlayer_only_rotates g).2.2.1

theorem nextPlayer_master (g : SimonGame) :
    (g.nextPlayer).masterSequenceLength = g.masterSequenceLength :=
  (nextPlayer_only_rotates g).2.2.2.1

theorem extendSequence_reuse (g : SimonGame) (c : Color)
    (hm : g.gameMode = GameMode.PASS_AND_PLAY)
    (hlt : g.sequenceLength < g.masterSequenceLength) :
    (g.extendSequence c).sequence = g.sequence ∧
    (g.sequenceLength < MAX_SEQUENCE_LENGTH →
      (g.extendSequence c).sequenceLength = g.sequenceLength + 1) := by
  simp only [SimonGame.extendSequence]
  split
  · simp [hm, hlt]
  · rename_i hcap
    exact ⟨rfl, fun hc => absurd hc hcap⟩

theorem extendSequence_append (g : SimonGame) (c : Color)
    (_hm : g.gameMode = GameMode.PASS_AND_PLAY)
    (hge : g.masterSequenceLength ≤ g.sequenceLength)
    (hcap : g.sequenceLength < MAX_SEQUENCE_LENGTH) :
    (g.extendSequence c).sequence g.sequenceLength = c ∧
    (∀ i, i ≠ g.sequenceLength →
      (g.extendSequence c).sequence i = g.sequence i) ∧
    (g.extendSequence c).sequenceLength = g.sequenceLength + 1 := by
  have hno : ¬ (g.gameMode = GameMode.PASS_AND_PLAY ∧
      g.sequenceLength < g.masterSequenceLength) := by
    intro hcon
    omega
  simp only [SimonGame.extendSequence, if_pos hcap, if_neg hno]
  split
  all_goals refine ⟨by simp, fun i hi => ?_, rfl⟩
  all_goals simp [hi]

theorem extendSequence_pass (g : SimonGame) (c : Color)
    (hm : g.gameMode = GameMode.PASS_AND_PLAY) :
    (g.extendSequence c).gameMode = GameMode.PASS_AND_PLAY ∧
    g.masterSequenceLength ≤ (g.extendSequence c).masterSequenceLength ∧
    ∀ i, i < g.masterSequenceLength →
      (g.extendSequence c).sequence i = g.sequence i := by
  simp only [SimonGame.extendSequence]
  split
  · split
    · exact ⟨hm, Nat.le_refl _, fun i _ => rfl⟩
    · rename_i hgen
      have hge : g.masterSequenceLength ≤ g.sequenceLength := by
        by_contra hcon
        exact hgen ⟨hm, Nat.lt_of_not_le hcon⟩
      split
      · refine ⟨hm, by simp; omega, fun i hi => ?_⟩
        simp
        omega
      · refine ⟨hm, Nat.le_refl _, fun i hi => ?_⟩
        simp
        omega
  · exact ⟨hm, Nat.le_refl _, fun i _ => rfl⟩

/-- One mid-game tick of a pass-and-play engine keeps the mode, never lowers
the master length, and never rewrites a sequence slot below the master
length. -/
theorem update_pass_tick (g : SimonGame)
    (hm : g.gameMode = GameMode.PASS_AND_PLAY)
    (h1 : g.state ≠ GameState.IDLE) (h2 : g.state ≠ GameState.GAME_OVER)
    (now : Nat) (p : Option Color) (c : Color) :
    (g.update now p c).gameMode = GameMode.PASS_AND_PLAY ∧
    g.masterSequenceLength ≤ (g.update now p c).masterSequenceLength ∧
    ∀ i, i < g.masterSequenceLength →
      (g.update now p c).sequence i = g.sequence i := by
  cases hst : g.state
  case IDLE => exact absurd hst h1
  case GAME_OVER => exact absurd hst h2
  case SHOWING_SEQUENCE =>
    simp [SimonGame.update, hst, SimonGame.handleShowingSequence,
      SimonGame.playSequence, SimonGame.setState, hm]
  case WAITING_INPUT =>
    simp only [SimonGame.update, hst, SimonGame.handleWaitingInput,
      SimonGame.setState]
    repeat' split
    all_goals simp_all
  case INPUT_CORRECT =>
    simp only [SimonGame.update, hst, SimonGame.handleInputCorrect,
      SimonGame.setState, hm]
    repeat' split
    all_goals
      first
        | exact extendSequence_pass _ c rfl
        | simp_all
  case INPUT_WRONG =>
    simp only [SimonGame.update, hst, SimonGame.handleInputWrong,
      SimonGame.setState, hm]
    repeat' split
    all_goals simp_all [nextPlayer_gameMode, nextPlayer_sequence,
      nextPlayer_master]
  case HIGH_SCORE =>
    simp only [SimonGame.update, hst, SimonGame.handleHighScore,
      SimonGame.setState]
    split
    all_goals simp_all

/-- C3. For the lifetime of one pass-and-play game the master sequence is
only extended, never regenerated: (1) an `extendSequence` call below the
master length reuses the stored colors verbatim (the array is untouched, only
the visible length grows); (2) a fresh random color is written only at the
current end of the sequence, at or beyond the master length, leaving all
other slots alone; (3) along any mid-game tick trace the mode persists, the
master length never shrinks, and every sequence slot below the starting
master length keeps its color — so participants reaching the same round depth
face the identical prefix of one shared sequence. -/
theorem C3_master_sequence_shared :
    (∀ (g : SimonGame) (c : Color),
      g.gameMode = GameMode.PASS_AND_PLAY →
      g.sequenceLength < g.masterSequenceLength →
      (g.extendSequence c).sequence = g.sequence ∧
      (g.sequenceLength < MAX_SEQUENCE_LENGTH →
        (g.extendSequence c).sequenceLength = g.sequenceLength + 1)) ∧
    (∀ (g : SimonGame) (c : Color),
      g.gameMode = GameMode.PASS_AND_PLAY →
      g.masterSequenceLength ≤ g.sequenceLength →
      g.sequenceLength < MAX_SEQUENCE_LENGTH →
      (g.extendSequence c).sequence g.sequenceLength = c ∧
      (∀ i, i ≠ g.sequenceLength →
        (g.extendSequence c).sequence i = g.sequence i)) ∧
    (∀ g g2 : SimonGame, MultiTrace g g2 →
      g.gameMode = GameMode.PASS_AND_PLAY →
      g2.gameMode = GameMode.PASS_AND_PLAY ∧
      g.masterSequenceLength ≤ g2.masterSequenceLength ∧
      ∀ i, i < g.masterSequenceLength → g2.sequence i = g.sequence i) := by
  refine ⟨fun g c hm hlt => extendSequence_reuse g c hm hlt,
    fun g c hm hge hcap =>
      ⟨(extendSequence_append g c hm hge hcap).1,
       (extendSequence_append g c hm hge hcap).2.1⟩,
    fun g g2 t => ?_⟩
  induction t with
  | refl => exact fun hm => ⟨hm, Nat.le_refl _, fun i _ => rfl⟩
  | tick g2 now p c t ha hb ih =>
    intro hm
    obtain ⟨ihm, ihle, ihseq⟩ := ih hm
    obtain ⟨um, ule, useq⟩ := update_pass_tick g2 ihm ha hb now p c
    exact ⟨um, Nat.le_trans ihle ule,
      fun i hi => (useq i (Nat.lt_of_lt_of_le hi ihle)).trans (ihseq i hi)⟩

/-- Witness for C3: a one-tick trace from a concrete mid-game two-player
state — the two fixed master colors survive the tick. -/
theorem C3_master_sequence_shared_witness :
    (c3Game.update 100 none Color.YELLOW).sequence 0 = c3Game.sequence 0 ∧
    (c3Game.update 100 none Color.YELLOW).sequence 1 = c3Game.sequence 1 :=
  ⟨(C3_master_sequence_shared.2.2 c3Game (c3Game.update 100 none Color.YELLOW)
      (MultiTrace.tick c3Game c3Game 100 none Color.YELLOW
        (MultiTrace.refl c3Game) (by decide) (by decide)) rfl).2.2 0
      (by decide),
   (C3_master_sequence_shared.2.2 c3Game (c3Game.update 100 none Color.YELLOW)
      (MultiTrace.tick c3Game c3Game 100 none Color.YELLOW
        (MultiTrace.refl c3Game) (by decide) (by decide)) rfl).2.2 1
      (by decide)⟩

/-!
Round-robin rotation for claim C10.
-/

theorem add_mod_ne_self (start j n : Nat) (hj0 : 0 < j) (hjn : j < n)
    (hs : start < n) : (start + j) % n ≠ start := by
  rcases Nat.lt_or_ge (start + j) n with hlt | hge
  · rw [Nat.mod_eq_of_lt hlt]
    omega
  · rw [Nat.mod_eq_sub_mod hge, Nat.mod_eq_of_lt (by omega)]
    omega

/-- The search loop of `nextPlayer`, started at `idx` with enough fuel,
returns the first index in cyclic order after `idx` whose player has not yet
played: if the first `k - 1` visited players have all played (and are not the
wrap-around break point) and the k-th visited player has not, the loop stops
exactly there with the found flag set — in particular it terminates within
`k ≤ fuel` iterations. -/
theorem nextPlayerLoop_finds (players : Nat → PlayerScore) (n start : Nat) :
    ∀ (k idx fuel : Nat), 1 ≤ k → k ≤ fuel →
    (∀ j, 1 ≤ j → j < k →
      (players ((idx + j) % n)).hasPlayed = true ∧ (idx + j) % n ≠ start) →
    (players ((idx + k) % n)).hasPlayed = false →
    SimonGame.nextPlayerLoop players n start idx fuel =
      ((idx + k) % n, true) := by
  intro k
  induction k with
  | zero => omega
  | succ k ih =>
    intro idx fuel h1 h2 hprev hlast
    obtain ⟨f, rfl⟩ : ∃ f, fuel = f + 1 := ⟨fuel - 1, by omega⟩
    by_cases hk : k = 0
    · subst hk
      simp only [SimonGame.nextPlayerLoop]
      rw [if_neg (fun hc => by rw [hlast] at hc; exact absurd hc.2 (by simp)),
        if_pos hlast]
    · have hk1 : 1 ≤ k := by omega
      have hj1 := hprev 1 (by omega) (by omega)
      simp only [SimonGame.nextPlayerLoop]
      rw [if_neg (fun hc => hj1.2 hc.1), if_neg (by simp [hj1.1])]
      have hrec := ih ((idx + 1) % n) f hk1 (by omega)
        (fun j hja hjb => by
          rw [Nat.mod_add_mod]
          have harr : idx + 1 + j = idx + (j + 1) := by omega
          rw [harr]
          exact hprev (j + 1) (by omega) (by omega))
        (by
          rw [Nat.mod_add_mod]
          have harr : idx + 1 + k = idx + (k + 1) := by omega
          rw [harr]
          exact hlast)
      rw [hrec, Nat.mod_add_mod]
      have harr : idx + 1 + k = idx + (k + 1) := by omega
      rw [harr]

/-- C10. Whenever `nextPlayer` runs while some participant still has
`hasPlayed == false`, its round-robin search terminates within `numPlayers`
iterations (the loop fuel in the model) and selects exactly the next
participant in cyclic order after the current index whose `hasPlayed` is
false, making that participant current; it never selects a participant who
has already finished. Formally: if the k-th cyclically-next participant is
the first
unplayed one (1 ≤ k ≤ numPlayers), the rotation lands on it. -/
theorem C10_nextPlayer_rotation (g : SimonGame) (k : Nat)
    (hk1 : 1 ≤ k) (hkn : k ≤ g.numPlayers)
    (hstart : g.currentPlayerIndex < g.numPlayers)
    (hprev : ∀ j, 1 ≤ j → j < k →
      (g.players
        ((g.currentPlayerIndex + j) % g.numPlayers)).hasPlayed = true)
    (hlast : (g.players
        ((g.currentPlayerIndex + k) % g.numPlayers)).hasPlayed = false) :
    (g.nextPlayer).currentPlayerIndex =
      (g.currentPlayerIndex + k) % g.numPlayers ∧
    (g.players ((g.nextPlayer).currentPlayerIndex)).hasPlayed = false ∧
    (g.nextPlayer).currentPlayerId =
      (g.players
        ((g.currentPlayerIndex + k) % g.numPlayers)).playerId := by
  have hloop := nextPlayerLoop_finds g.players g.numPlayers
    g.currentPlayerIndex k g.currentPlayerIndex g.numPlayers hk1 hkn
    (fun j hj1 hjk =>
      ⟨hprev j hj1 hjk,
       add_mod_ne_self g.currentPlayerIndex j g.numPlayers (by omega)
         (by omega) hstart⟩)
    hlast
  simp only [SimonGame.nextPlayer, hloop]
  simp [hlast]

/-- Witness for C10: in the concrete three-player state (current index 1,
players 1 and 2 finished, player 0 not), the rotation steps past player 2 and
selects player 0, who has not played, making "A" the current player. -/
theorem C10_nextPlayer_rotation_witness :
    (c10Game.nextPlayer).currentPlayerIndex = 0 ∧
    (c10Game.players ((c10Game.nextPlayer).currentPlayerIndex)).hasPlayed
      = false ∧
    (c10Game.nextPlayer).currentPlayerId = "A" := by
  have h := C10_nextPlayer_rotation c10Game 2 (by decide) (by decide)
    (by decide)
    (fun j hj1 hj2 => by
      have hj : j = 1 := by omega
      subst hj
      decide)
    (by decide)
  exact ⟨h.1, h.2.1, h.2.2⟩

/-- C8. In every engine state reachable through the claim's operations
(initialization, `startGame`, `startMultiplayerGame`, and `update` ticks in
any state, which include the multiplayer turn rotation), the sequence length
never exceeds the active tier's `maxLength` and the round cursor
`currentStep` is always at most the sequence length. -/
theorem C8_reachable_invariant (g : SimonGame) (h : Reachable g) :
    g.currentStep ≤ g.sequenceLength ∧
    g.sequenceLength ≤ g.settings.maxLength := by
  have hinv : Inv g := by
    induction h with
    | init hs =>
      exact ⟨Nat.le_refl 0, Nat.zero_le _, (by decide : (1 : Nat) ≤ 8)⟩
    | start g d now c _ ih => exact inv_startGame g d now c ih.2.2
    | startMulti g mode ids names n d now c _ ih =>
      exact inv_startMultiplayerGame g mode ids names n d now c ih
    | tick g now p c _ ih => exact inv_update g now p c ih
  exact ⟨hinv.1, hinv.2.1⟩

/-- Witness for C8: the invariant instantiated at a concrete reachable state
(one `startGame` from the initialized engine). -/
theorem C8_reachable_invariant_witness :
    (zeroGame.startGame 0 5 Color.BLUE).currentStep ≤
      (zeroGame.startGame 0 5 Color.BLUE).sequenceLength ∧
    (zeroGame.startGame 0 5 Color.BLUE).sequenceLength ≤
      (zeroGame.startGame 0 5 Color.BLUE).settings.maxLength :=
  C8_reachable_invariant (zeroGame.startGame 0 5 Color.BLUE)
    (Reachable.start zeroGame 0 5 Color.BLUE (Reachable.init fun _ => 0))

end Simon
